import Mathlib

/-!
Verification of the vimeet websocket backend (src/main.rs) against its
natural-language specification.  The connection-session code, the command
decoder pipeline and the heartbeat logic are translated from src/main.rs.
The `messages::inbound` shapes and the coordinator / poll state machine live
in modules that are not part of the given sources; those definitions are
modelled from the spec and carry a doc comment saying so.
-/

namespace Vimeet

/-- JSON values as produced by a JSON text parser.  Integer-valued numbers in
the i64/u64 range are `intNum`; any other number (fractional, exponent form,
or out of integer range) is stored by serde_json as an f64 and can never
deserialize to `usize`, so it is abstracted as `floatNum`.  Objects keep their
field list in textual order, duplicates included. -/
inductive Json where
  | null : Json
  | bool (b : Bool) : Json
  | intNum (n : Int) : Json
  | floatNum : Json
  | str (s : String) : Json
  | arr (elems : List Json) : Json
  | obj (fields : List (String × Json)) : Json

/-- Value of a JSON string, as serde_json `as_str`. -/
def Json.asStr : Json → Option String
  | .str s => some s
  | _ => none

/-- Last-wins field lookup: the semantics of collecting a JSON object into a
HashMap (later duplicate keys overwrite earlier ones) and then calling get. -/
def getLast (fields : List (String × Json)) (k : String) : Option Json :=
  fields.foldl (fun acc f => if f.1 = k then some f.2 else acc) none

/-- Field lookup for serde struct deserialization: the field must occur
exactly once (serde rejects duplicate struct fields) or the parse fails. -/
def getUnique (fields : List (String × Json)) (k : String) : Option Json :=
  match fields.filter (fun f => f.1 = k) with
  | [f] => some f.2
  | _ => none

/-- Deserialize an object whose values must all be strings
(serde HashMap of String to String); any non-string value fails. -/
def toStringPairs : List (String × Json) → Option (List (String × String))
  | [] => some []
  | (k, .str v) :: rest => (toStringPairs rest).map (fun m => (k, v) :: m)
  | _ => none

/-- Last-wins lookup in a string-valued map (HashMap get semantics). -/
def getStr (m : List (String × String)) (k : String) : Option String :=
  m.foldl (fun acc f => if f.1 = k then some f.2 else acc) none

/-- Deserializing a JSON value into `usize`: succeeds exactly on
integer-stored numbers in the range of a 64-bit unsigned integer. -/
def parseUsizeValue : Json → Option Nat
  | .intNum n => if 0 ≤ n ∧ n < (2 : Int) ^ 64 then some n.toNat else none
  | _ => none

/-- Modelled from the spec: the poll-family inbound shape
(messages::inbound::HashMapObject, module not under src/): a discriminant
field named type and an object field carrying string fields. -/
structure HashMapObject where
  type : String
  object : List (String × String)

/-- Modelled from the spec: the numeric inbound shape
(messages::inbound::UsizeObject, module not under src/): a discriminant
field named type and a single numeric payload field. -/
structure UsizeObject where
  type : String
  object : Nat

/-- Modelled from the spec: the arbitrary-valued inbound shape
(messages::inbound::ArbitraryObject, module not under src/): a discriminant
field named type and a single JSON-value payload field. -/
structure ArbitraryObject where
  type : String
  object : Json

/-- Modelled from the spec: serde deserialization of `HashMapObject` from a
JSON value (both fields required, type must be a string, object must be an
object with string values). -/
def from_str_HashMapObject (j : Json) : Option HashMapObject :=
  match j with
  | .obj fields =>
    match getUnique fields "type", getUnique fields "object" with
    | some (.str t), some (.obj inner) =>
      match toStringPairs inner with
      | some m => some ⟨t, m⟩
      | none => none
    | _, _ => none
  | _ => none

/-- Modelled from the spec: serde deserialization of `UsizeObject` from a
JSON value. -/
def from_str_UsizeObject (j : Json) : Option UsizeObject :=
  match j with
  | .obj fields =>
    match getUnique fields "type", getUnique fields "object" with
    | some (.str t), some v =>
      match parseUsizeValue v with
      | some n => some ⟨t, n⟩
      | none => none
    | _, _ => none
  | _ => none

/-- Modelled from the spec: serde deserialization of `ArbitraryObject` from a
JSON value. -/
def from_str_ArbitraryObject (j : Json) : Option ArbitraryObject :=
  match j with
  | .obj fields =>
    match getUnique fields "type", getUnique fields "object" with
    | some (.str t), some v => some ⟨t, v⟩
    | _, _ => none
  | _ => none

/-- The recognized command discriminants (messages::inbound::Types). -/
inductive Types where
  | Poll | PollOption | Vote | PollClose
  | Elevate | Recede | Instant | Raise | Lower
deriving DecidableEq

/-- Modelled from the spec: get_type of messages::inbound (module not under
src/), mapping the discriminant string to a recognized command kind; any
other string is unrecognized. The nine strings are fixed by spec section 6
and by the deprecated-discriminant list in src/main.rs. -/
def get_type (t : String) : Option Types :=
  match t with
  | "poll" => some .Poll
  | "polloption" => some .PollOption
  | "vote" => some .Vote
  | "closepoll" => some .PollClose
  | "elevate" => some .Elevate
  | "recede" => some .Recede
  | "instant" => some .Instant
  | "raise" => some .Raise
  | "lower" => some .Lower
  | _ => none

/-- The read-only identity of a connection session (fields id, room, name of
WsWebSocketSession in src/main.rs, fixed at connection time). -/
structure Session where
  id : Nat
  room : String
  name : String

/-- The commands a session can forward to the coordinator, with exactly the
fields main.rs puts into each server message when it constructs it. -/
inductive ServerCommand where
  | Poll (title : String) (ownerId : Nat) (ownerName roomName : String)
      (options : List String) (votes : List (Nat × String)) (closed : Bool)
  | PollOption (pollTitle title : String) (ownerId : Nat)
      (ownerName roomName : String)
  | PollVoteHelper (ownerId : Nat) (ownerName roomName pollTitle : String)
      (optionTitle : String)
  | PollCloseHelper (pollTitle : String) (senderId : Nat)
      (senderName roomName : String)
  | Elevate (object : Nat) (ownerId : Nat) (roomName : String)
  | Recede (object : Nat) (ownerId : Nat) (roomName : String)
  | Instant (object : Json) (ownerId : Nat) (ownerName roomName : String)
  | Raise (object : Json) (ownerId : Nat) (ownerName roomName : String)
  | Lower (object : Json) (ownerId : Nat) (ownerName roomName : String)

/-- First decoding stage of StreamHandler::handle in src/main.rs: parse as
HashMapObject and dispatch the poll family; a missing required field or an
unrecognized or non-poll-family discriminant falls through (returns none). -/
def stage1 (s : Session) (j : Json) : Option ServerCommand :=
  match from_str_HashMapObject j with
  | some msg =>
    match get_type msg.type with
    | some .Poll =>
      match getStr msg.object "poll_title" with
      | some poll_title =>
        some (.Poll poll_title s.id s.name s.room [] [] false)
      | none => none
    | some .PollOption =>
      match getStr msg.object "poll_title", getStr msg.object "poll_option_title" with
      | some pt, some pot => some (.PollOption pt pot s.id s.name s.room)
      | _, _ => none
    | some .Vote =>
      match getStr msg.object "poll_title", getStr msg.object "poll_option_title" with
      | some pt, some pot => some (.PollVoteHelper s.id s.name s.room pt pot)
      | _, _ => none
    | some .PollClose =>
      match getStr msg.object "poll_title" with
      | some pt => some (.PollCloseHelper pt s.id s.name s.room)
      | none => none
    | _ => none
  | none => none

/-- Second decoding stage of StreamHandler::handle in src/main.rs: parse as
UsizeObject and dispatch elevate / recede. -/
def stage2 (s : Session) (j : Json) : Option ServerCommand :=
  match from_str_UsizeObject j with
  | some msg =>
    match get_type msg.type with
    | some .Elevate => some (.Elevate msg.object s.id s.room)
    | some .Recede => some (.Recede msg.object s.id s.room)
    | _ => none
  | none => none

/-- Third decoding stage of StreamHandler::handle in src/main.rs: parse as
ArbitraryObject and dispatch instant / raise / lower. -/
def stage3 (s : Session) (j : Json) : Option ServerCommand :=
  match from_str_ArbitraryObject j with
  | some msg =>
    match get_type msg.type with
    | some .Instant => some (.Instant msg.object s.id s.name s.room)
    | some .Raise => some (.Raise msg.object s.id s.name s.room)
    | some .Lower => some (.Lower msg.object s.id s.name s.room)
    | _ => none
  | none => none

/-- The command decoder of StreamHandler::handle in src/main.rs: the three
typed stages are attempted in order; each stage that sends a command returns
immediately, and a stage that produces no command falls through to the next. -/
def decode (s : Session) (j : Json) : Option ServerCommand :=
  match stage1 s j with
  | some c => some c
  | none =>
    match stage2 s j with
    | some c => some c
    | none => stage3 s j

/-- The fixed deprecated discriminant set logged by the flat fallback in
src/main.rs. -/
def deprecatedSet : List String :=
  ["raise", "lower", "instant", "elevate", "recede", "poll",
   "polloption", "vote", "closepoll"]

/-- What the generic flat fallback of StreamHandler::handle does. -/
inductive FallbackOutcome where
  | malformatted
  | deprecated (t : String)
  | silent
  | panicked
deriving DecidableEq

/-- The generic flat fallback of StreamHandler::handle in src/main.rs
(lines 257-274).  The inbound text is modelled by its JSON parse result
(none when the text is not valid JSON).  Parsing into a flat HashMap fails
for malformed JSON and for non-object JSON (malformatted log); when it
succeeds, the code indexes the HashMap at key type, which panics when the
key is absent; otherwise a string discriminant in the deprecated set is
logged and anything else is silently ignored. -/
def fallback (payload : Option Json) : FallbackOutcome :=
  match payload with
  | none => .malformatted
  | some j =>
    match j with
    | .obj fields =>
      match getLast fields "type" with
      | none => .panicked
      | some v =>
        let ty := match v.asStr with
          | some r => r
          | none => "NOT PARSEABLE"
        if ty ∈ deprecatedSet then .deprecated ty else .silent
    | _ => .malformatted

/-- Decode an inbound text payload (none models text that is not valid
JSON, on which every serde from_str call fails). -/
def decodeText (s : Session) : Option Json → Option ServerCommand
  | none => none
  | some j => decode s j

/-- Observable effect of the Text arm of StreamHandler::handle. -/
structure TextResult where
  command : Option ServerCommand
  outcome : Option FallbackOutcome
  stop : Bool
  clientOut : List String
  panicked : Bool

/-- The Text arm of StreamHandler::handle in src/main.rs: when one of the
three stages produces a command the handler sends it and returns; otherwise
the flat fallback runs (and panics on an object without a type key). Nothing
in this arm writes to the client or stops the actor. -/
def handleText (s : Session) (payload : Option Json) : TextResult :=
  match decodeText s payload with
  | some c => ⟨some c, none, false, [], false⟩
  | none =>
    let fb := fallback payload
    ⟨none, some fb, false, [], fb = .panicked⟩

/-- Messages a session can send the coordinator actor. -/
inductive CoordMsg where
  | join (id : Nat) (room name : String)
  | disconnect (id : Nat)
  | command (c : ServerCommand)

/-- Whether a coordinator message is a Disconnect notification. -/
def isDisconnect : CoordMsg → Bool
  | .disconnect _ => true
  | _ => false

/-- Outbound websocket frames a session writes to its client. -/
inductive OutFrame where
  | ping
  | pong
  | text (s : String)
deriving DecidableEq

/-- Inbound websocket frames (ws::Message). -/
inductive WsFrame where
  | ping
  | pong
  | text (payload : Option Json)
  | binary
  | close
  | continuation
  | nop

/-- One item of the session's inbound stream:
Result of ws::Message and ws::ProtocolError. -/
inductive InMsg where
  | protocolError
  | frame (f : WsFrame)

/-- Observable effect of one call to StreamHandler::handle. -/
structure HandleResult where
  coordMsgs : List CoordMsg
  clientOut : List OutFrame
  hbReset : Bool
  stop : Bool
  panicked : Bool

/-- StreamHandler::handle of WsWebSocketSession in src/main.rs: a protocol
error stops the actor; ping updates the heartbeat instant and replies pong;
pong updates the heartbeat instant; text runs the decoder pipeline; binary is
logged and ignored; close and continuation stop the actor; nop does
nothing. -/
def streamHandle (s : Session) (m : InMsg) : HandleResult :=
  match m with
  | .protocolError => ⟨[], [], false, true, false⟩
  | .frame .ping => ⟨[], [.pong], true, false, false⟩
  | .frame .pong => ⟨[], [], true, false, false⟩
  | .frame (.text p) =>
    let r := handleText s p
    ⟨(r.command.map CoordMsg.command).toList, r.clientOut.map OutFrame.text,
      false, r.stop, r.panicked⟩
  | .frame .binary => ⟨[], [], false, false, false⟩
  | .frame .close => ⟨[], [], false, true, false⟩
  | .frame .continuation => ⟨[], [], false, true, false⟩
  | .frame .nop => ⟨[], [], false, false, false⟩

/-- How often heartbeat pings are sent (HEARTBEAT_INTERVAL in src/main.rs),
in time units (seconds). -/
def HEARTBEAT_INTERVAL : Nat := 5

/-- How long before lack of client response causes a timeout
(CLIENT_TIMEOUT in src/main.rs), in time units (seconds). -/
def CLIENT_TIMEOUT : Nat := 10

/-- Observable effect of one heartbeat interval tick. -/
structure HbResult where
  coordMsgs : List CoordMsg
  pingSent : Bool
  stop : Bool

/-- The heartbeat interval closure of WsWebSocketSession::hb in src/main.rs:
when the time elapsed since the last heartbeat instant exceeds
CLIENT_TIMEOUT, send Disconnect to the coordinator and stop the actor
without pinging; otherwise send a ping. -/
def hbTick (s : Session) (elapsed : Nat) : HbResult :=
  if elapsed > CLIENT_TIMEOUT then ⟨[.disconnect s.id], false, true⟩
  else ⟨[], true, false⟩

/-- WsWebSocketSession::stopping in src/main.rs: notify the coordinator
with Disconnect. -/
def stoppingMsgs (s : Session) : List CoordMsg := [.disconnect s.id]

/-- The possible causes that terminate a session. -/
inductive TermCause where
  | heartbeatTimeout (elapsed : Nat)
  | closeFrame
  | continuationFrame
  | protocolError
  | joinFailure

/-- What the session's own handler code emits on the terminating event, and
whether it requests an actor stop: heartbeat-timeout behaviour comes from
hbTick, frame and protocol-error behaviour from streamHandle, and a failed
Join in WsWebSocketSession::started stops the actor without emitting
anything. -/
def causeRun (s : Session) : TermCause → List CoordMsg × Bool
  | .heartbeatTimeout e => ((hbTick s e).coordMsgs, (hbTick s e).stop)
  | .closeFrame =>
    ((streamHandle s (.frame .close)).coordMsgs, (streamHandle s (.frame .close)).stop)
  | .continuationFrame =>
    ((streamHandle s (.frame .continuation)).coordMsgs,
      (streamHandle s (.frame .continuation)).stop)
  | .protocolError =>
    ((streamHandle s .protocolError).coordMsgs, (streamHandle s .protocolError).stop)
  | .joinFailure => ([], true)

/-- Whether a termination cause is the heartbeat timeout. -/
def TermCause.isHbTimeout : TermCause → Bool
  | .heartbeatTimeout _ => true
  | _ => false

/-- Disconnect notifications the coordinator receives over the whole
termination of a session: the ones the terminating handler itself emits,
plus the one from the stopping lifecycle callback, which the actor runtime
invokes exactly once when the actor stop requested by the handler is
processed. -/
def lifetimeDisconnects (s : Session) (c : TermCause) : Nat :=
  ((causeRun s c).1.filter isDisconnect).length
    + (if (causeRun s c).2 then ((stoppingMsgs s).filter isDisconnect).length else 0)

/-- Modulus of the usize session-id counter (usize is 64 bits wide on the
supported targets). -/
def USIZE_MOD : Nat := 2 ^ 64

/-- AtomicUsize::fetch_add(1) in get_id of src/main.rs: returns the old
counter value and stores the incremented value, wrapping around on
overflow. -/
def fetch_add_1 (c : Nat) : Nat × Nat := (c, (c + 1) % USIZE_MOD)

/-- Counter value before the (n+1)-th call to get_id; the static counter of
src/main.rs starts at 1. -/
def counterAfter : Nat → Nat
  | 0 => 1
  | n + 1 => (fetch_add_1 (counterAfter n)).2

/-- The session id returned by the (n+1)-th call to get_id in
src/main.rs. -/
def idOf (n : Nat) : Nat := (fetch_add_1 (counterAfter n)).1

/-- Modelled from the spec: the per-poll state owned by the coordinator
(server.rs is not under src/): owner identity, ordered option sequence, a
map from voter session id to chosen option title, and the closed flag. -/
structure Poll where
  ownerId : Nat
  ownerName : String
  options : List String
  votes : List (Nat × String)
  closed : Bool
deriving DecidableEq

/-- First-match lookup of a voter's entry in the vote map (the map has at
most one entry per voter). -/
def lookupVote : List (Nat × String) → Nat → Option String
  | [], _ => none
  | (k, v) :: rest, k' => if k = k' then some v else lookupVote rest k'

/-- HashMap insert semantics on the vote map: overwrite the entry of the
voter in place when present, otherwise add one. -/
def upsert (k : Nat) (v : String) : List (Nat × String) → List (Nat × String)
  | [] => [(k, v)]
  | (k', v') :: rest =>
    if k' = k then (k, v) :: rest else (k', v') :: upsert k v rest

/-- Count of vote-map entries whose value equals the given option title. -/
def countVotes (m : List (Nat × String)) (o : String) : Nat :=
  (m.filter (fun e => e.2 = o)).length

/-- The tally broadcast for a poll: each option title in sequence order,
paired with the count of vote-map entries carrying it. -/
def tallies (p : Poll) : List (String × Nat) :=
  p.options.map (fun o => (o, countVotes p.votes o))

/-- Events the coordinator broadcasts to a room about a poll. -/
inductive PollEvent where
  | created (title : String)
  | updatedOptions (options : List String)
  | updatedTally (t : List (String × Nat))
  | pollClosed (t : List (String × Nat))
deriving DecidableEq

/-- Modelled from the spec: AddOption of the poll state machine (server.rs
is not under src/): when the poll is Open, append the option title and
broadcast an updated-options event; on a Closed poll, a no-op with no
broadcast. -/
def addOption (p : Poll) (t : String) : Poll × Option PollEvent :=
  if p.closed = true then (p, none)
  else
    let q := { p with options := p.options ++ [t] }
    (q, some (.updatedOptions q.options))

/-- Modelled from the spec: Vote of the poll state machine (server.rs is not
under src/): when the poll is Open and the option title is present in its
option sequence, set or overwrite the voter's entry in the vote map and
broadcast an updated-tally event; otherwise a no-op with no broadcast. -/
def vote (p : Poll) (voter : Nat) (opt : String) : Poll × Option PollEvent :=
  if p.closed = true ∨ opt ∉ p.options then (p, none)
  else
    let q := { p with votes := upsert voter opt p.votes }
    (q, some (.updatedTally (tallies q)))

/-- Modelled from the spec: ClosePoll of the poll state machine (server.rs
is not under src/): when the poll is Open, set closed to true and broadcast
a poll-closed event with the final tallies; closing an already-closed poll
is a no-op with no broadcast. -/
def closePoll (p : Poll) : Poll × Option PollEvent :=
  if p.closed = true then (p, none)
  else
    let q := { p with closed := true }
    (q, some (.pollClosed (tallies q)))

/-- The commands the poll state machine handles after creation. -/
inductive PollCmd where
  | addOption (t : String)
  | vote (voter : Nat) (opt : String)
  | close

/-- Dispatch one poll command to the poll state machine. -/
def applyCmd : PollCmd → Poll → Poll × Option PollEvent
  | .addOption t, p => addOption p t
  | .vote voter opt, p => vote p voter opt
  | .close, p => closePoll p

/-- Apply a sequence of poll commands, collecting the broadcasts emitted. -/
def applyCmds : List PollCmd → Poll → Poll × List PollEvent
  | [], p => (p, [])
  | c :: cs, p =>
    let r := applyCmd c p
    let rest := applyCmds cs r.1
    (rest.1, r.2.toList ++ rest.2)

/-- First-match lookup of a poll by title in a room's poll map. -/
def lookupPoll : List (String × Poll) → String → Option Poll
  | [], _ => none
  | (t, p) :: rest, t' => if t = t' then some p else lookupPoll rest t'

/-- Modelled from the spec: the CreatePoll handling of the coordinator
(server.rs is not under src/): when no poll with this title exists in the
room, create one in the Open state with empty option sequence and empty
vote map and broadcast a poll-created event; the spec leaves the policy for
an already-existing title unresolved, so that branch is modelled as a
no-op. -/
def createPoll (polls : List (String × Poll)) (title : String)
    (oid : Nat) (oname : String) : List (String × Poll) × Option PollEvent :=
  match lookupPoll polls title with
  | some _ => (polls, none)
  | none => (polls ++ [(title, ⟨oid, oname, [], [], false⟩)], some (.created title))

/-- Session id carried by a decoded command. -/
def ownerIdOf : ServerCommand → Nat
  | .Poll _ i _ _ _ _ _ => i
  | .PollOption _ _ i _ _ => i
  | .PollVoteHelper i _ _ _ _ => i
  | .PollCloseHelper _ i _ _ => i
  | .Elevate _ i _ => i
  | .Recede _ i _ => i
  | .Instant _ i _ _ => i
  | .Raise _ i _ _ => i
  | .Lower _ i _ _ => i

/-- Room name carried by a decoded command. -/
def roomOf : ServerCommand → String
  | .Poll _ _ _ r _ _ _ => r
  | .PollOption _ _ _ _ r => r
  | .PollVoteHelper _ _ r _ _ => r
  | .PollCloseHelper _ _ _ r => r
  | .Elevate _ _ r => r
  | .Recede _ _ r => r
  | .Instant _ _ _ r => r
  | .Raise _ _ _ r => r
  | .Lower _ _ _ r => r

/-- Display name carried by a decoded command; Elevate and Recede carry
none. -/
def ownerNameOf : ServerCommand → Option String
  | .Poll _ _ n _ _ _ _ => some n
  | .PollOption _ _ _ n _ => some n
  | .PollVoteHelper _ n _ _ _ => some n
  | .PollCloseHelper _ _ n _ => some n
  | .Elevate _ _ _ => none
  | .Recede _ _ _ => none
  | .Instant _ _ n _ => some n
  | .Raise _ _ n _ => some n
  | .Lower _ _ n _ => some n

/-- Whether a command is of the numeric shape (elevate / recede). -/
def isNumericCmd : ServerCommand → Bool
  | .Elevate _ _ _ => true
  | .Recede _ _ _ => true
  | _ => false

/-- The numeric payload of an Elevate or Recede command. -/
def extractNum : ServerCommand → Option Nat
  | .Elevate n _ _ => some n
  | .Recede n _ _ => some n
  | _ => none

/-! ## Helper lemmas -/

theorem applyCmd_closed (c : PollCmd) (p : Poll) (h : p.closed = true) :
    applyCmd c p = (p, none) := by
  cases c <;> simp [applyCmd, addOption, vote, closePoll, h]

theorem upsert_nil (k : Nat) (v : String) : upsert k v [] = [(k, v)] := rfl

theorem upsert_cons (k : Nat) (v : String) (k' : Nat) (v' : String)
    (tl : List (Nat × String)) :
    upsert k v ((k', v') :: tl) =
      if k' = k then (k, v) :: tl else (k', v') :: upsert k v tl := rfl

theorem lookupVote_nil (w : Nat) : lookupVote [] w = none := rfl

theorem lookupVote_cons (k : Nat) (v : String) (tl : List (Nat × String))
    (w : Nat) :
    lookupVote ((k, v) :: tl) w =
      if k = w then some v else lookupVote tl w := rfl

theorem lookupVote_upsert_self (m : List (Nat × String)) (k : Nat) (v : String) :
    lookupVote (upsert k v m) k = some v := by
  induction m with
  | nil => simp [upsert_nil, lookupVote_cons, lookupVote_nil]
  | cons hd tl ih =>
    obtain ⟨k', v'⟩ := hd
    by_cases h : k' = k
    · simp [upsert_cons, h, lookupVote_cons]
    · simp [upsert_cons, h, lookupVote_cons, ih]

theorem lookupVote_upsert_ne (m : List (Nat × String)) (k : Nat) (v : String)
    (w : Nat) (h : w ≠ k) :
    lookupVote (upsert k v m) w = lookupVote m w := by
  have hkw : ¬ (k = w) := fun hh => h (Eq.symm hh)
  induction m with
  | nil => simp [upsert_nil, lookupVote_cons, lookupVote_nil, hkw]
  | cons hd tl ih =>
    obtain ⟨k', v'⟩ := hd
    by_cases hk : k' = k
    · subst hk
      simp [upsert_cons, lookupVote_cons, hkw]
    · simp only [upsert_cons, if_neg hk, lookupVote_cons, ih]

theorem mem_keys_upsert (m : List (Nat × String)) (k : Nat) (v : String)
    (a : Nat) (h : a ∈ (upsert k v m).map Prod.fst) :
    a ∈ m.map Prod.fst ∨ a = k := by
  induction m with
  | nil =>
    rw [upsert_nil] at h
    simp at h
    exact Or.inr h
  | cons hd tl ih =>
    obtain ⟨k', v'⟩ := hd
    by_cases hk : k' = k
    · rw [upsert_cons, if_pos hk] at h
      rw [List.map_cons, List.mem_cons] at h
      rcases h with h | h
      · exact Or.inr h
      · exact Or.inl (by rw [List.map_cons, List.mem_cons]; exact Or.inr h)
    · rw [upsert_cons, if_neg hk] at h
      rw [List.map_cons, List.mem_cons] at h
      rcases h with h | h
      · exact Or.inl (by rw [List.map_cons, List.mem_cons]; exact Or.inl h)
      · rcases ih h with h' | h'
        · exact Or.inl (by rw [List.map_cons, List.mem_cons]; exact Or.inr h')
        · exact Or.inr h'

theorem nodup_keys_upsert (m : List (Nat × String)) (k : Nat) (v : String)
    (h : (m.map Prod.fst).Nodup) : ((upsert k v m).map Prod.fst).Nodup := by
  induction m with
  | nil => simp [upsert_nil]
  | cons hd tl ih =>
    obtain ⟨k', v'⟩ := hd
    rw [List.map_cons, List.nodup_cons] at h
    obtain ⟨h1, h2⟩ := h
    by_cases hk : k' = k
    · subst hk
      rw [upsert_cons, if_pos rfl, List.map_cons, List.nodup_cons]
      exact ⟨h1, h2⟩
    · rw [upsert_cons, if_neg hk, List.map_cons, List.nodup_cons]
      refine ⟨?_, ih h2⟩
      intro hmem
      rcases mem_keys_upsert tl k v k' hmem with h' | h'
      · exact h1 h'
      · exact hk h'

theorem lookupPoll_append_fresh (polls : List (String × Poll)) (title : String)
    (p : Poll) (h : lookupPoll polls title = none) :
    lookupPoll (polls ++ [(title, p)]) title = some p := by
  induction polls with
  | nil => simp [lookupPoll]
  | cons hd tl ih =>
    obtain ⟨t', p'⟩ := hd
    by_cases ht : t' = title
    · simp [lookupPoll, ht] at h
    · simp [lookupPoll, ht] at h ⊢
      exact ih h

theorem counterAfter_closed (n : Nat) : counterAfter n = (1 + n) % USIZE_MOD := by
  induction n with
  | zero =>
    have : (1 : Nat) % USIZE_MOD = 1 := Nat.mod_eq_of_lt (by norm_num [USIZE_MOD])
    simp [counterAfter, this]
  | succ n ih =>
    have h1 : (1 : Nat) % USIZE_MOD = 1 := Nat.mod_eq_of_lt (by norm_num [USIZE_MOD])
    calc counterAfter (n + 1) = ((1 + n) % USIZE_MOD + 1) % USIZE_MOD := by
          simp [counterAfter, fetch_add_1, ih]
      _ = ((1 + n) % USIZE_MOD + 1 % USIZE_MOD) % USIZE_MOD := by rw [h1]
      _ = (1 + n + 1) % USIZE_MOD := (Nat.add_mod _ _ _).symm
      _ = (1 + (n + 1)) % USIZE_MOD := by ring_nf

theorem idOf_closed (n : Nat) : idOf n = (1 + n) % USIZE_MOD := by
  unfold idOf fetch_add_1
  exact counterAfter_closed n

/-! ## Decoder inversion lemmas -/

theorem parseUsizeValue_inv (v : Json) (n : Nat) (h : parseUsizeValue v = some n) :
    ∃ m : Int, v = .intNum m ∧ 0 ≤ m ∧ m < (2 : Int) ^ 64 ∧ n = m.toNat := by
  cases v with
  | intNum m =>
    simp only [parseUsizeValue] at h
    split at h
    · rename_i hm
      injection h with h
      exact ⟨m, rfl, hm.1, hm.2, h.symm⟩
    · exact Option.noConfusion h
  | null => exact absurd h (by simp [parseUsizeValue])
  | bool b => exact absurd h (by simp [parseUsizeValue])
  | floatNum => exact absurd h (by simp [parseUsizeValue])
  | str s => exact absurd h (by simp [parseUsizeValue])
  | arr xs => exact absurd h (by simp [parseUsizeValue])
  | obj fs => exact absurd h (by simp [parseUsizeValue])

theorem from_str_UsizeObject_obj_inv (fields : List (String × Json))
    (msg : UsizeObject) (h : from_str_UsizeObject (.obj fields) = some msg) :
    ∃ v, getUnique fields "type" = some (.str msg.type) ∧
      getUnique fields "object" = some v ∧
      parseUsizeValue v = some msg.object := by
  simp only [from_str_UsizeObject] at h
  split at h
  · rename_i t v h1 h2
    split at h
    · rename_i n hn
      injection h with h
      subst h
      exact ⟨v, h1, h2, hn⟩
    · exact Option.noConfusion h
  · exact Option.noConfusion h

theorem from_str_HashMapObject_obj_inv (fields : List (String × Json))
    (msg : HashMapObject) (h : from_str_HashMapObject (.obj fields) = some msg) :
    ∃ inner, getUnique fields "type" = some (.str msg.type) ∧
      getUnique fields "object" = some (.obj inner) ∧
      toStringPairs inner = some msg.object := by
  simp only [from_str_HashMapObject] at h
  split at h
  · rename_i t inner h1 h2
    split at h
    · rename_i m hm
      injection h with h
      subst h
      exact ⟨inner, h1, h2, hm⟩
    · exact Option.noConfusion h
  · exact Option.noConfusion h

theorem from_str_ArbitraryObject_obj_inv (fields : List (String × Json))
    (msg : ArbitraryObject) (h : from_str_ArbitraryObject (.obj fields) = some msg) :
    getUnique fields "type" = some (.str msg.type) ∧
      getUnique fields "object" = some msg.object := by
  simp only [from_str_ArbitraryObject] at h
  split at h
  · rename_i t v h1 h2
    injection h with h
    subst h
    exact ⟨h1, h2⟩
  · exact Option.noConfusion h

theorem stage1_shape (s : Session) (j : Json) (c : ServerCommand)
    (h : stage1 s j = some c) :
    (∃ pt, c = .Poll pt s.id s.name s.room [] [] false) ∨
    (∃ pt pot, c = .PollOption pt pot s.id s.name s.room) ∨
    (∃ pt pot, c = .PollVoteHelper s.id s.name s.room pt pot) ∨
    (∃ pt, c = .PollCloseHelper pt s.id s.name s.room) := by
  unfold stage1 at h
  repeat' split at h
  all_goals first
    | exact Option.noConfusion h
    | (injection h with h; subst h; first
        | exact Or.inl ⟨_, rfl⟩
        | exact Or.inr (Or.inl ⟨_, _, rfl⟩)
        | exact Or.inr (Or.inr (Or.inl ⟨_, _, rfl⟩))
        | exact Or.inr (Or.inr (Or.inr ⟨_, rfl⟩)))

theorem stage2_shape (s : Session) (j : Json) (c : ServerCommand)
    (h : stage2 s j = some c) :
    ∃ n, c = .Elevate n s.id s.room ∨ c = .Recede n s.id s.room := by
  unfold stage2 at h
  repeat' split at h
  all_goals first
    | exact Option.noConfusion h
    | (injection h with h; subst h; first
        | exact ⟨_, Or.inl rfl⟩
        | exact ⟨_, Or.inr rfl⟩)

theorem stage3_shape (s : Session) (j : Json) (c : ServerCommand)
    (h : stage3 s j = some c) :
    ∃ o, c = .Instant o s.id s.name s.room ∨ c = .Raise o s.id s.name s.room ∨
      c = .Lower o s.id s.name s.room := by
  unfold stage3 at h
  repeat' split at h
  all_goals first
    | exact Option.noConfusion h
    | (injection h with h; subst h; first
        | exact ⟨_, Or.inl rfl⟩
        | exact ⟨_, Or.inr (Or.inl rfl)⟩
        | exact ⟨_, Or.inr (Or.inr rfl)⟩)

theorem stage2_inv (s : Session) (j : Json) (c : ServerCommand)
    (h : stage2 s j = some c) :
    ∃ fields v n, j = .obj fields ∧ getUnique fields "object" = some v ∧
      parseUsizeValue v = some n ∧
      (c = .Elevate n s.id s.room ∨ c = .Recede n s.id s.room) := by
  cases j with
  | obj fields =>
    unfold stage2 at h
    split at h
    · rename_i msg heq
      obtain ⟨v, _, hv, hn⟩ := from_str_UsizeObject_obj_inv fields msg heq
      refine ⟨fields, v, msg.object, rfl, hv, hn, ?_⟩
      split at h
      · injection h with h; subst h; exact Or.inl rfl
      · injection h with h; subst h; exact Or.inr rfl
      · exact Option.noConfusion h
    · exact Option.noConfusion h
  | null => exact absurd h (by simp [stage2, from_str_UsizeObject])
  | bool b => exact absurd h (by simp [stage2, from_str_UsizeObject])
  | intNum m => exact absurd h (by simp [stage2, from_str_UsizeObject])
  | floatNum => exact absurd h (by simp [stage2, from_str_UsizeObject])
  | str t => exact absurd h (by simp [stage2, from_str_UsizeObject])
  | arr xs => exact absurd h (by simp [stage2, from_str_UsizeObject])

theorem decode_cases (s : Session) (j : Json) (c : ServerCommand)
    (h : decode s j = some c) :
    stage1 s j = some c ∨ (stage1 s j = none ∧ stage2 s j = some c) ∨
    (stage1 s j = none ∧ stage2 s j = none ∧ stage3 s j = some c) := by
  unfold decode at h
  split at h
  · rename_i c' heq
    injection h with h
    subst h
    exact Or.inl heq
  · rename_i heq1
    split at h
    · rename_i c' heq2
      injection h with h
      subst h
      exact Or.inr (Or.inl ⟨heq1, heq2⟩)
    · rename_i heq2
      exact Or.inr (Or.inr ⟨heq1, heq2, h⟩)

theorem stage1_none_of_numeric_type (s : Session) (fields : List (String × Json))
    (t : String) (ht : getUnique fields "type" = some (.str t))
    (hty : get_type t = some .Elevate ∨ get_type t = some .Recede) :
    stage1 s (.obj fields) = none := by
  unfold stage1
  split
  · rename_i msg heq
    obtain ⟨inner, ht', _, _⟩ := from_str_HashMapObject_obj_inv fields msg heq
    have htt : msg.type = t := by
      rw [ht'] at ht
      injection ht with ht
      injection ht
    rcases hty with hty | hty <;> rw [htt, hty]
  · rfl

theorem stage3_none_of_numeric_type (s : Session) (fields : List (String × Json))
    (t : String) (ht : getUnique fields "type" = some (.str t))
    (hty : get_type t = some .Elevate ∨ get_type t = some .Recede) :
    stage3 s (.obj fields) = none := by
  unfold stage3
  split
  · rename_i msg heq
    obtain ⟨ht', _⟩ := from_str_ArbitraryObject_obj_inv fields msg heq
    have htt : msg.type = t := by
      rw [ht'] at ht
      injection ht with ht
      injection ht
    rcases hty with hty | hty <;> rw [htt, hty]
  · rfl

theorem stage2_tv_none (s : Session) (t : String) (v : Json)
    (hpv : parseUsizeValue v = none) :
    stage2 s (.obj [("type", .str t), ("object", v)]) = none := by
  unfold stage2
  split
  · rename_i msg heq
    obtain ⟨v', _, hv', hn'⟩ :=
      from_str_UsizeObject_obj_inv [("type", .str t), ("object", v)] msg heq
    have hvv : v' = v := by
      rw [show getUnique [("type", Json.str t), ("object", v)] "object" = some v
        from rfl] at hv'
      injection hv' with hv'
      exact hv'.symm
    rw [hvv, hpv] at hn'
    exact absurd hn' (by simp)
  · rfl

/-! ## Claims -/

/-- C1: once a poll's closed flag is true it never reverts, and every
AddOption, Vote or ClosePoll command on a closed poll, and every Vote for an
option title not present in the poll's option sequence, leaves the poll's
state unchanged and emits no broadcast. -/
theorem claim_C1 :
    (∀ (p : Poll) (cs : List PollCmd), p.closed = true → applyCmds cs p = (p, [])) ∧
    (∀ (p : Poll) (v : Nat) (o : String), o ∉ p.options →
      applyCmd (.vote v o) p = (p, none)) := by
  constructor
  · intro p cs h
    induction cs with
    | nil => simp [applyCmds]
    | cons c cs ih => simp [applyCmds, applyCmd_closed c p h, ih]
  · intro p v o h
    simp [applyCmd, vote, h]

/-- Witness for C1 at a concrete closed poll and a concrete absent option. -/
theorem claim_C1_witness :
    applyCmds [.addOption "b", .vote 2 "a", .close]
        ⟨1, "alice", ["a"], [(1, "a")], true⟩ =
      (⟨1, "alice", ["a"], [(1, "a")], true⟩, []) ∧
    applyCmd (.vote 1 "zz") ⟨1, "alice", ["a"], [], false⟩ =
      (⟨1, "alice", ["a"], [], false⟩, none) :=
  ⟨claim_C1.1 ⟨1, "alice", ["a"], [(1, "a")], true⟩
      [.addOption "b", .vote 2 "a", .close] rfl,
   claim_C1.2 ⟨1, "alice", ["a"], [], false⟩ 1 "zz" (by decide)⟩

/-- C2: a Vote on an open poll for a present option sets or overwrites the
voter's single entry in the vote map (preserving at most one entry per
voter), a broadcast of the updated tally is emitted, and the tally of each
option is the count of vote-map entries carrying that option's title. -/
theorem claim_C2 :
    ∀ (p : Poll) (voter : Nat) (opt : String),
      p.closed = false → opt ∈ p.options →
      lookupVote (vote p voter opt).1.votes voter = some opt ∧
      (∀ w, w ≠ voter →
        lookupVote (vote p voter opt).1.votes w = lookupVote p.votes w) ∧
      ((p.votes.map Prod.fst).Nodup →
        ((vote p voter opt).1.votes.map Prod.fst).Nodup) ∧
      (vote p voter opt).2 =
        some (.updatedTally (tallies (vote p voter opt).1)) ∧
      (∀ o n, (o, n) ∈ tallies (vote p voter opt).1 →
        n = countVotes (vote p voter opt).1.votes o) := by
  intro p voter opt hclosed hmem
  have hv : vote p voter opt =
      ({ p with votes := upsert voter opt p.votes },
        some (.updatedTally (tallies { p with votes := upsert voter opt p.votes }))) := by
    simp [vote, hclosed, hmem]
  refine ⟨?_, ?_, ?_, ?_, ?_⟩
  · rw [hv]
    exact lookupVote_upsert_self p.votes voter opt
  · intro w hw
    rw [hv]
    exact lookupVote_upsert_ne p.votes voter opt w hw
  · intro h
    rw [hv]
    exact nodup_keys_upsert p.votes voter opt h
  · rw [hv]
  · intro o n hmem'
    rw [hv] at hmem'
    simp [tallies] at hmem'
    obtain ⟨a, _, ha1, ha2⟩ := hmem'
    rw [hv]
    simp [← ha1, ← ha2]

/-- Witness for C2: a first vote and an overwriting second vote on a
concrete open poll. -/
theorem claim_C2_witness :
    lookupVote (vote ⟨1, "alice", ["pizza"], [], false⟩ 2 "pizza").1.votes 2 =
      some "pizza" ∧
    (vote ⟨1, "alice", ["pizza"], [], false⟩ 2 "pizza").2 =
      some (.updatedTally
        (tallies (vote ⟨1, "alice", ["pizza"], [], false⟩ 2 "pizza").1)) ∧
    (((vote ⟨1, "alice", ["pizza"], [], false⟩ 2 "pizza").1.votes.map
        Prod.fst).Nodup) :=
  ⟨(claim_C2 ⟨1, "alice", ["pizza"], [], false⟩ 2 "pizza" rfl (by decide)).1,
   (claim_C2 ⟨1, "alice", ["pizza"], [], false⟩ 2 "pizza" rfl (by decide)).2.2.2.1,
   (claim_C2 ⟨1, "alice", ["pizza"], [], false⟩ 2 "pizza" rfl (by decide)).2.2.1
     (by decide)⟩

/-- C6: the heartbeat interval is 5 time units and the timeout bound is 10;
on a tick, when the elapsed time since the last-seen instant exceeds the
timeout the session sends Disconnect with its id and stops without pinging,
otherwise it pings and neither disconnects nor stops. -/
theorem claim_C6 :
    HEARTBEAT_INTERVAL = 5 ∧ CLIENT_TIMEOUT = 10 ∧
    ∀ (s : Session) (elapsed : Nat),
      (elapsed > CLIENT_TIMEOUT →
        hbTick s elapsed = ⟨[.disconnect s.id], false, true⟩) ∧
      (elapsed ≤ CLIENT_TIMEOUT → hbTick s elapsed = ⟨[], true, false⟩) := by
  refine ⟨rfl, rfl, fun s elapsed => ⟨fun h => ?_, fun h => ?_⟩⟩
  · simp [hbTick, h]
  · simp [hbTick, Nat.not_lt.mpr h]

/-- Witness for C6 at elapsed times 11 and 5. -/
theorem claim_C6_witness :
    hbTick ⟨1, "r", "n"⟩ 11 = ⟨[.disconnect 1], false, true⟩ ∧
    hbTick ⟨1, "r", "n"⟩ 5 = ⟨[], true, false⟩ :=
  ⟨(claim_C6.2.2 ⟨1, "r", "n"⟩ 11).1 (by decide),
   (claim_C6.2.2 ⟨1, "r", "n"⟩ 5).2 (by decide)⟩

/-- C5 fails on the code: on a heartbeat timeout the timeout handler sends
Disconnect and then stops the actor, whose stopping callback sends
Disconnect again, so the coordinator is notified twice, not exactly once. -/
theorem claim_C5_counterexample :
    (causeRun ⟨1, "r", "n"⟩ (.heartbeatTimeout 11)).2 = true ∧
    lifetimeDisconnects ⟨1, "r", "n"⟩ (.heartbeatTimeout 11) = 2 ∧
    ¬ lifetimeDisconnects ⟨1, "r", "n"⟩ (.heartbeatTimeout 11) = 1 := by
  refine ⟨rfl, rfl, by decide⟩

/-- C5 amended: every termination cause notifies the coordinator with
Disconnect at least once; close, continuation, protocol-error and
join-failure terminations notify exactly once, while a heartbeat timeout
notifies twice. -/
theorem claim_C5_amended :
    ∀ (s : Session) (c : TermCause), (causeRun s c).2 = true →
      1 ≤ lifetimeDisconnects s c ∧
      lifetimeDisconnects s c = (if c.isHbTimeout then 2 else 1) := by
  intro s c h
  cases c with
  | heartbeatTimeout e =>
    by_cases he : e > CLIENT_TIMEOUT
    · simp [lifetimeDisconnects, causeRun, hbTick, he, isDisconnect,
        stoppingMsgs, TermCause.isHbTimeout]
    · simp [causeRun, hbTick, he] at h
  | closeFrame =>
    simp [lifetimeDisconnects, causeRun, streamHandle, isDisconnect,
      stoppingMsgs, TermCause.isHbTimeout]
  | continuationFrame =>
    simp [lifetimeDisconnects, causeRun, streamHandle, isDisconnect,
      stoppingMsgs, TermCause.isHbTimeout]
  | protocolError =>
    simp [lifetimeDisconnects, causeRun, streamHandle, isDisconnect,
      stoppingMsgs, TermCause.isHbTimeout]
  | joinFailure =>
    simp [lifetimeDisconnects, causeRun, isDisconnect, stoppingMsgs,
      TermCause.isHbTimeout]

/-- Witness for the amended C5 at a concrete close-frame termination. -/
theorem claim_C5_amended_witness :
    1 ≤ lifetimeDisconnects ⟨1, "r", "n"⟩ .closeFrame ∧
    lifetimeDisconnects ⟨1, "r", "n"⟩ .closeFrame =
      (if TermCause.closeFrame.isHbTimeout then 2 else 1) :=
  claim_C5_amended ⟨1, "r", "n"⟩ .closeFrame rfl

/-- C8 fails on the code: the usize counter wraps modulo 2 to the 64, so the
connection issued after 2 to the 64 further calls receives the same id as
the first one, and the id issued on the call just before the wrap is 0,
smaller than the first id 1. -/
theorem claim_C8_counterexample :
    idOf USIZE_MOD = idOf 0 ∧ ¬ idOf 0 < idOf (USIZE_MOD - 1) := by
  rw [idOf_closed, idOf_closed, idOf_closed]
  norm_num [USIZE_MOD]

/-- C8 amended: session ids are distinct among the first 2 to the 64
connections and strictly increasing among the first 2 to the 64 minus 1
connections; beyond that the atomic usize counter wraps around. -/
theorem claim_C8_amended :
    ∀ m n : Nat, m < n →
      (n < USIZE_MOD → idOf m ≠ idOf n) ∧
      (n < USIZE_MOD - 1 → idOf m < idOf n) := by
  intro m n h
  constructor
  · intro hn
    rw [idOf_closed, idOf_closed]
    simp only [USIZE_MOD] at *
    norm_num at *
    omega
  · intro hn
    rw [idOf_closed, idOf_closed]
    simp only [USIZE_MOD] at *
    norm_num at *
    omega

/-- Witness for the amended C8 at connection indices 0 and 5. -/
theorem claim_C8_amended_witness :
    idOf 0 ≠ idOf 5 ∧ idOf 0 < idOf 5 :=
  ⟨(claim_C8_amended 0 5 (by norm_num)).1 (by norm_num [USIZE_MOD]),
   (claim_C8_amended 0 5 (by norm_num)).2 (by norm_num [USIZE_MOD])⟩

/-- C3: the decoder attempts the three typed shapes in the fixed order
poll-family, numeric, arbitrary-value; the command of the first stage that
yields one is forwarded, a later stage is consulted only when every earlier
stage yields none, and at most one command is forwarded per payload. -/
theorem claim_C3 :
    ∀ (s : Session) (j : Json),
      (∀ c, stage1 s j = some c → decode s j = some c) ∧
      (stage1 s j = none → ∀ c, stage2 s j = some c → decode s j = some c) ∧
      (stage1 s j = none → stage2 s j = none → decode s j = stage3 s j) ∧
      (∀ c₁ c₂, decode s j = some c₁ → decode s j = some c₂ → c₁ = c₂) := by
  intro s j
  refine ⟨?_, ?_, ?_, ?_⟩
  · intro c h
    unfold decode
    rw [h]
  · intro h1 c h2
    unfold decode
    rw [h1, h2]
  · intro h1 h2
    unfold decode
    rw [h1, h2]
  · intro c₁ c₂ h1 h2
    rw [h1] at h2
    injection h2

/-- Witness for C3: with the poll-family stage failing on a concrete recede
payload, the numeric stage's command is the decoder's result. -/
theorem claim_C3_witness :
    decode ⟨5, "r2", "bob"⟩
        (Json.obj [("type", Json.str "recede"), ("object", Json.intNum 2)]) =
      some (.Recede 2 5 "r2") :=
  (claim_C3 ⟨5, "r2", "bob"⟩
      (Json.obj [("type", Json.str "recede"), ("object", Json.intNum 2)])).2.1
    rfl (.Recede 2 5 "r2") rfl

/-- C4 names behaviour the code does not have: on the well-formed JSON
payload consisting of an empty object (which carries no recognized
discriminant at any decoding stage), the generic flat fallback indexes the
parsed map at the absent key type, which panics, so the handler does not
complete normally and no mere log is produced. -/
theorem claim_C4_bug :
    (handleText ⟨7, "room1", "alice"⟩ (some (Json.obj []))).panicked = true ∧
    (handleText ⟨7, "room1", "alice"⟩ (some (Json.obj []))).command = none ∧
    fallback (some (Json.obj [])) = .panicked :=
  ⟨rfl, rfl, rfl⟩

/-- C7: a CreatePoll for a title absent from the room creates a poll in the
Open state with empty option sequence and empty vote map and broadcasts a
poll-created event; moreover the decoded create-poll command is always sent
with empty options, empty votes and closed set to false. -/
theorem claim_C7 :
    (∀ (polls : List (String × Poll)) (title : String) (oid : Nat) (oname : String),
      lookupPoll polls title = none →
      lookupPoll (createPoll polls title oid oname).1 title =
        some ⟨oid, oname, [], [], false⟩ ∧
      (createPoll polls title oid oname).2 = some (.created title)) ∧
    (∀ (s : Session) (j : Json) (t : String) (oid : Nat) (onm rm : String)
        (opts : List String) (vts : List (Nat × String)) (cl : Bool),
      decode s j = some (.Poll t oid onm rm opts vts cl) →
      opts = [] ∧ vts = [] ∧ cl = false) := by
  constructor
  · intro polls title oid oname h
    unfold createPoll
    rw [h]
    exact ⟨lookupPoll_append_fresh polls title _ h, rfl⟩
  · intro s j t oid onm rm opts vts cl h
    rcases decode_cases s j _ h with h1 | ⟨_, h2⟩ | ⟨_, _, h3⟩
    · rcases stage1_shape _ _ _ h1 with ⟨pt, hc⟩ | ⟨pt, pot, hc⟩ | ⟨pt, pot, hc⟩ | ⟨pt, hc⟩ <;>
        simp_all
    · rcases stage2_shape _ _ _ h2 with ⟨n, hc | hc⟩ <;> simp at hc
    · rcases stage3_shape _ _ _ h3 with ⟨o, hc | hc | hc⟩ <;> simp at hc

/-- Witness for C7: creating poll lunch in a room with no polls, and the
decoded create-poll command of a concrete payload. -/
theorem claim_C7_witness :
    lookupPoll (createPoll [] "lunch" 7 "alice").1 "lunch" =
      some ⟨7, "alice", [], [], false⟩ ∧
    (createPoll [] "lunch" 7 "alice").2 = some (.created "lunch") ∧
    (([] : List String) = [] ∧ ([] : List (Nat × String)) = [] ∧ false = false) :=
  ⟨(claim_C7.1 [] "lunch" 7 "alice" rfl).1,
   (claim_C7.1 [] "lunch" 7 "alice" rfl).2,
   claim_C7.2 ⟨7, "room1", "alice"⟩
     (Json.obj [("type", Json.str "poll"),
       ("object", Json.obj [("poll_title", Json.str "lunch")])])
     "lunch" 7 "alice" "room1" [] [] false rfl⟩

/-- C9 fails on the code: a forwarded Elevate command carries the session's
id and room but no display name at all, so it is not annotated with the
session's display name. -/
theorem claim_C9_counterexample :
    decode ⟨7, "room1", "alice"⟩
        (Json.obj [("type", Json.str "elevate"), ("object", Json.intNum 3)]) =
      some (.Elevate 3 7 "room1") ∧
    ownerNameOf (.Elevate 3 7 "room1") ≠ some "alice" :=
  ⟨rfl, by simp [ownerNameOf]⟩

/-- C9 amended: every forwarded command carries the decoding session's own
id and room; commands other than Elevate and Recede also carry the session's
own display name, while Elevate and Recede carry no display name; none of
these annotations depend on the payload. -/
theorem claim_C9_amended :
    ∀ (s : Session) (j : Json) (c : ServerCommand), decode s j = some c →
      ownerIdOf c = s.id ∧ roomOf c = s.room ∧
      ownerNameOf c = (if isNumericCmd c then none else some s.name) := by
  intro s j c h
  rcases decode_cases s j c h with h1 | ⟨_, h2⟩ | ⟨_, _, h3⟩
  · rcases stage1_shape _ _ _ h1 with ⟨pt, rfl⟩ | ⟨pt, pot, rfl⟩ | ⟨pt, pot, rfl⟩ | ⟨pt, rfl⟩ <;>
      simp [ownerIdOf, roomOf, ownerNameOf, isNumericCmd]
  · rcases stage2_shape _ _ _ h2 with ⟨n, rfl | rfl⟩ <;>
      simp [ownerIdOf, roomOf, ownerNameOf, isNumericCmd]
  · rcases stage3_shape _ _ _ h3 with ⟨o, rfl | rfl | rfl⟩ <;>
      simp [ownerIdOf, roomOf, ownerNameOf, isNumericCmd]

/-- Witness for the amended C9 at a concrete decoded create-poll command. -/
theorem claim_C9_amended_witness :
    ownerIdOf (ServerCommand.Poll "lunch" 7 "alice" "room1" [] [] false) = 7 ∧
    roomOf (ServerCommand.Poll "lunch" 7 "alice" "room1" [] [] false) = "room1" ∧
    ownerNameOf (ServerCommand.Poll "lunch" 7 "alice" "room1" [] [] false) =
      (if isNumericCmd (ServerCommand.Poll "lunch" 7 "alice" "room1" [] [] false)
        then none else some "alice") :=
  claim_C9_amended ⟨7, "room1", "alice"⟩
    (Json.obj [("type", Json.str "poll"),
      ("object", Json.obj [("poll_title", Json.str "lunch")])])
    (ServerCommand.Poll "lunch" 7 "alice" "room1" [] [] false) rfl

/-- C10: an Elevate or Recede command is decoded only when the payload field
is an integer-stored JSON number that is non-negative and below 2 to the
64 (representable as usize); for any other payload value under an elevate or
recede discriminant the numeric stage fails, no command is forwarded at all,
and the flat fallback logs the deprecated discriminant. -/
theorem claim_C10 :
    (∀ (s : Session) (j : Json) (c : ServerCommand) (n : Nat),
      decode s j = some c → extractNum c = some n →
      ∃ (fields : List (String × Json)) (m : Int),
        j = .obj fields ∧ getUnique fields "object" = some (.intNum m) ∧
        0 ≤ m ∧ m < (2 : Int) ^ 64 ∧ n = m.toNat) ∧
    (∀ (s : Session) (v : Json) (t : String),
      (t = "elevate" ∨ t = "recede") → parseUsizeValue v = none →
      decode s (.obj [("type", .str t), ("object", v)]) = none ∧
      fallback (some (.obj [("type", .str t), ("object", v)])) = .deprecated t) := by
  constructor
  · intro s j c n h hn
    rcases decode_cases s j c h with h1 | ⟨_, h2⟩ | ⟨_, _, h3⟩
    · rcases stage1_shape _ _ _ h1 with ⟨pt, rfl⟩ | ⟨pt, pot, rfl⟩ | ⟨pt, pot, rfl⟩ | ⟨pt, rfl⟩ <;>
        simp [extractNum] at hn
    · obtain ⟨fields, v, n', rfl, hv, hpv, hc⟩ := stage2_inv _ _ _ h2
      have hnn' : n' = n := by
        rcases hc with rfl | rfl <;> simpa [extractNum] using hn
      obtain ⟨m, rfl, hm0, hm1, rfl⟩ := parseUsizeValue_inv v n' hpv
      exact ⟨fields, m, rfl, hv, hm0, hm1, hnn'.symm⟩
    · rcases stage3_shape _ _ _ h3 with ⟨o, rfl | rfl | rfl⟩ <;>
        simp [extractNum] at hn
  · intro s v t ht hpv
    have hty : get_type t = some .Elevate ∨ get_type t = some .Recede := by
      rcases ht with rfl | rfl
      · exact Or.inl rfl
      · exact Or.inr rfl
    have h1 : stage1 s (.obj [("type", .str t), ("object", v)]) = none :=
      stage1_none_of_numeric_type s _ t rfl hty
    have h2 : stage2 s (.obj [("type", .str t), ("object", v)]) = none :=
      stage2_tv_none s t v hpv
    have h3 : stage3 s (.obj [("type", .str t), ("object", v)]) = none :=
      stage3_none_of_numeric_type s _ t rfl hty
    constructor
    · unfold decode
      rw [h1, h2, h3]
    · rcases ht with rfl | rfl <;> rfl

/-- Witness for C10: an elevate payload whose object field is a string
decodes to nothing and only triggers the deprecated-usage log. -/
theorem claim_C10_witness :
    decode ⟨7, "room1", "alice"⟩
        (Json.obj [("type", Json.str "elevate"), ("object", Json.str "x")]) = none ∧
    fallback (some (Json.obj [("type", Json.str "elevate"),
        ("object", Json.str "x")])) = .deprecated "elevate" :=
  claim_C10.2 ⟨7, "room1", "alice"⟩ (Json.str "x") "elevate" (Or.inl rfl) rfl

end Vimeet
